import Mathlib

/-
Verification of the statistical core of the dionysus telemetry-analysis
scripts: the threshold evaluator (efficiency.py), the dynamic threshold
builder and pipeline loops (efficiencyp2.py, clean.py), and the bus-flip
detector (thoughts.py).  Numeric values are modelled as elements of a
linear ordered field (instantiated at the rationals, and at the reals
where the sample standard deviation introduces a square root); the Python
float rounding `round(x, d)` is modelled as idealized half-to-even decimal
rounding.
-/

namespace Dionysus

/-! ## Idealized rounding: Python `round(x, d)` (half to even) -/

section Rounding

variable {K : Type} [LinearOrderedField K] [FloorRing K]

/-- Round to the nearest integer, ties to the even neighbour, as Python
`round` does. -/
def roundHalfEven (x : K) : ℤ :=
  let n : ℤ := ⌊x⌋
  if x - n < 1 / 2 then n
  else if 1 / 2 < x - n then n + 1
  else if n % 2 = 0 then n else n + 1

/-- Python `round(x, d)`, idealized to exact decimal arithmetic. -/
def pyRound (x : K) (d : ℕ) : K :=
  ((roundHalfEven (x * (10 : K) ^ d) : ℤ) : K) / (10 : K) ^ d

end Rounding

/-! ## ThresholdEvaluator (efficiency.py)

`Metrics` models the computed-metrics mapping restricted to the keys the
threshold checks read (`metrics[...]` would raise `KeyError` on a missing
key, which every call site of interest avoids); the threshold dictionaries
are association lists so that the key-presence tests of the source are
honest. -/

structure Metrics (K : Type) where
  variance : K
  std : K
  slope : K
  abs_slope : K
  iqr : K
deriving DecidableEq, Repr

/-- Field access `metrics[key]` for the keys the checkers read.  The final
`0` branch is unreachable in this development (Python raises `KeyError`). -/
def Metrics.lookupKey {K : Type} [OfNat K 0] (m : Metrics K) (key : String) : K :=
  if key = "variance" then m.variance
  else if key = "std" then m.std
  else if key = "slope" then m.slope
  else if key = "abs_slope" then m.abs_slope
  else if key = "iqr" then m.iqr
  else 0

/-- The fixed `steady_state_thresholds` dictionary as `check_fixed_thresholds`
reads it: `max_variance`, `max_std`, `max_slope` with plain indexing,
`max_iqr` through `.get(\x7bkey\x7d, 1.0)` whose default is 1. -/
structure FixedThresholds (K : Type) where
  max_variance : K
  max_std : K
  max_slope : K
  max_iqr : Option K
deriving DecidableEq, Repr

section Evaluator

variable {K : Type} [LinearOrderedField K] [FloorRing K]

/-- The function `check_threshold` of efficiency.py: compare the value against the bounds,
all three rounded to `round_digits` decimal places.  The reason text elides
the `.4f` numeric rendering of the source (no claim depends on it). -/
def check_threshold (value min_threshold max_threshold : K)
    (metric_name : String) (round_digits : ℕ := 4) : Bool × String :=
  let value_rounded := pyRound value round_digits
  let min_rounded := pyRound min_threshold round_digits
  let max_rounded := pyRound max_threshold round_digits
  if value_rounded < min_rounded then
    (true, metric_name ++ " below min (dynamic)")
  else if max_rounded < value_rounded then
    (true, metric_name ++ " above max (dynamic)")
  else (false, "")

/-- The body of the `for metric_key, metric_label in checks` loop of
`check_dynamic_thresholds`: `none` when either bound key is absent (the
check is skipped), otherwise the `check_threshold` outcome. -/
def checkOneDynamic (m : Metrics K) (thresholds : List (String × K))
    (metric_key metric_label : String) (round_digits : ℕ := 4) :
    Option (Bool × String) :=
  match thresholds.lookup ("min_" ++ metric_key),
        thresholds.lookup ("max_" ++ metric_key) with
  | some mn, some mx =>
      some (check_threshold (m.lookupKey metric_key) mn mx metric_label round_digits)
  | _, _ => none

/-- One step of the failed-checks/reasons accumulation. -/
def dynStep (m : Metrics K) (thresholds : List (String × K)) (round_digits : ℕ)
    (acc : ℕ × List String) (ck : String × String) : ℕ × List String :=
  match checkOneDynamic m thresholds ck.1 ck.2 round_digits with
  | some (failed, reason) =>
      if failed then (acc.1 + 1, acc.2 ++ [reason]) else acc
  | none => acc

/-- The metric/label pairs `checks` of `check_dynamic_thresholds` (note the
source reads the slope under the key `slope`, not `abs_slope`). -/
def dynChecks : List (String × String) :=
  [("variance", "Variance"), ("std", "Std"), ("slope", "Slope"), ("iqr", "IQR")]

/-- The function `check_dynamic_thresholds` of efficiency.py: run the four checks, skip a
metric when either bound key is missing, and return the collected reasons
only when all 4 checks failed. -/
def check_dynamic_thresholds (m : Metrics K) (thresholds : List (String × K))
    (round_digits : ℕ := 4) : List String :=
  let r := dynChecks.foldl (dynStep m thresholds round_digits) (0, [])
  if r.1 < 4 then [] else r.2

/-- The four fixed-threshold conditions of `check_fixed_thresholds`, in
source order, each paired with its reason string (numeric rendering elided). -/
def fixedChecks (m : Metrics K) (t : FixedThresholds K) : List (Bool × String) :=
  [(m.variance > t.max_variance, "Variance above fixed max"),
   (m.std > t.max_std, "Std above fixed max"),
   (m.abs_slope > t.max_slope, "Slope above fixed max"),
   (m.iqr > t.max_iqr.getD 1, "IQR above fixed max")]

/-- The function `check_fixed_thresholds` of efficiency.py: only upper bounds, unrounded
comparisons, and the all-4-failed gate. -/
def check_fixed_thresholds (m : Metrics K) (t : FixedThresholds K) : List String :=
  let failed := (fixedChecks m t).filter (fun c => c.1)
  if failed.length < 4 then [] else failed.map (fun c => c.2)

end Evaluator

/-! ## The combined checker and the per-label flagging (clean.py, efficiency.py) -/

section Flagging

variable {K : Type} [LinearOrderedField K] [FloorRing K]

/-- Modelled from the spec: `check_thresholds(metrics, thresholds, threshold_type)`,
the combined checker that clean.py and the test suite (estin.py) call, is not
among the source files; per spec section 4.2 it compares each of the four
tracked metrics (variance, std, abs_slope, iqr) rounded to 4 decimal places
against the rounded bounds — dynamic mode requires both `min_`/`max_` bounds
and skips the metric when either is absent, fixed mode enforces only the
`max_` bound — and returns the reasons only when all 4 checks failed. -/
def check_thresholds (m : Metrics K) (thresholds : List (String × K))
    (threshold_type : String) : List String :=
  let tracked : List (String × String) :=
    [("variance", "Variance"), ("std", "Std"),
     ("abs_slope", "Slope"), ("iqr", "IQR")]
  let step : ℕ × List String → String × String → ℕ × List String := fun acc ck =>
    if threshold_type = "dynamic" then
      match thresholds.lookup ("min_" ++ ck.1), thresholds.lookup ("max_" ++ ck.1) with
      | some mn, some mx =>
          let r := check_threshold (m.lookupKey ck.1) mn mx ck.2 4
          if r.1 then (acc.1 + 1, acc.2 ++ [r.2]) else acc
      | _, _ => acc
    else
      match thresholds.lookup ("max_" ++ ck.1) with
      | some mx =>
          if pyRound mx 4 < pyRound (m.lookupKey ck.1) 4 then
            (acc.1 + 1, acc.2 ++ [ck.2 ++ " above max (fixed)"])
          else acc
      | none => acc
  let r := tracked.foldl step (0, [])
  if r.1 < 4 then [] else r.2

/-- The flagging outcome a record carries: the `flagged`, `flags` and
`flag_reasons` entries that `process_label_metrics` stores. -/
structure FlagOutcome where
  flagged : Bool
  flags : String
  flag_reasons : String
deriving DecidableEq, Repr

/-- Package a reason list the way both `process_label_metrics` variants do. -/
def mkFlagOutcome (reasons : List String) : FlagOutcome :=
  { flagged := reasons ≠ []
    flags := if reasons ≠ [] then "all_thresholds_failed" else ""
    flag_reasons := String.intercalate "; " reasons }

/-- Python truthiness of the optional `dynamic_thresholds` dictionary:
`None` and the empty dict are falsy. -/
def dynTruthy (dyn : Option (List (String × List (String × K)))) : Bool :=
  match dyn with
  | some d => !d.isEmpty
  | none => false

/-- The flagging portion (lines 190-211) of `process_label_metrics` in
efficiency.py, given the already-computed metrics: anomaly checking happens
only for the `steady_state` label; when dynamic thresholds are truthy the
record is checked only if its group key is present — otherwise the reason
list stays empty — and the fixed checker runs only when no dynamic
thresholds were supplied at all. -/
def flagSteadyEff (label : String) (ofp test_case : String) (m : Metrics K)
    (fixedT : FixedThresholds K)
    (dyn : Option (List (String × List (String × K)))) : FlagOutcome :=
  if label = "steady_state" then
    let group_key := ofp ++ "_" ++ test_case
    let flag_reasons :=
      if dynTruthy dyn then
        match (dyn.getD []).lookup group_key with
        | some ths => check_dynamic_thresholds m ths 4
        | none => []
      else check_fixed_thresholds m fixedT
    mkFlagOutcome flag_reasons
  else { flagged := false, flags := "", flag_reasons := "" }

/-- The flagging portion (lines 46-62) of `process_label_metrics` in
clean.py: when dynamic thresholds are truthy the thresholds fall back to the
fixed set `steady_state_thresholds` (a dictionary, here `fixedMap`) if the
group key is absent, and the threshold type passed on is `dynamic` either
way; with falsy dynamic thresholds the fixed set is checked in `fixed`
mode. -/
def flagSteadyClean (label : String) (ofp test_case : String) (m : Metrics K)
    (fixedMap : List (String × K))
    (dyn : Option (List (String × List (String × K)))) : FlagOutcome :=
  if label = "steady_state" then
    let group_key := ofp ++ "_" ++ test_case
    let pair :=
      if dynTruthy dyn then (((dyn.getD []).lookup group_key).getD fixedMap, "dynamic")
      else (fixedMap, "fixed")
    mkFlagOutcome (check_thresholds m pair.1 pair.2)
  else { flagged := false, flags := "", flag_reasons := "" }

end Flagging

/-! ## DynamicThresholdBuilder (efficiencyp2.py)

Baseline metric records are rows of the first-pass output restricted to the
columns the builder reads; their numeric fields are rationals, and the
sample standard deviation (pandas `.std()`, divisor `n - 1`) lands in the
reals through the square root. -/

/-- One baseline metric record, restricted to the columns
`_calculate_dynamic_thresholds` reads. -/
structure BaselineRecord where
  label : String
  ofp : String
  test_case : String
  variance : ℚ
  std : ℚ
  abs_slope : ℚ
  iqr : ℚ
deriving DecidableEq, Repr

/-- Column access `group[metric]` for the four tracked metric columns (the
final `0` branch is unreachable: the builder only asks for these four). -/
def BaselineRecord.col (r : BaselineRecord) (metric : String) : ℚ :=
  if metric = "variance" then r.variance
  else if metric = "std" then r.std
  else if metric = "abs_slope" then r.abs_slope
  else if metric = "iqr" then r.iqr
  else 0

/-- pandas `.mean()`; the empty column (division by zero, which pandas turns
into NaN) does not occur in this development. -/
def sampleMean (xs : List ℚ) : ℚ := xs.sum / xs.length

/-- pandas `.var()` with the default `ddof=1` divisor `n - 1`; columns of
length below 2 (NaN in pandas) do not occur in this development. -/
def sampleVar (xs : List ℚ) : ℚ :=
  (xs.map (fun x => (x - sampleMean xs) ^ 2)).sum / ((xs.length : ℚ) - 1)

/-- pandas `.std()`: the square root of the sample variance. -/
noncomputable def sampleStd (xs : List ℚ) : ℝ :=
  Real.sqrt ((sampleVar xs : ℚ) : ℝ)

/-- The two entries the `for metric in metrics` loop of
`_compute_metric_thresholds` adds for one metric: max bound mean plus half a
standard deviation, min bound the same below the mean clamped at zero. -/
noncomputable def metricBounds (g : List BaselineRecord) (metric : String) :
    List (String × ℝ) :=
  let col := g.map (fun r => r.col metric)
  let mean_val : ℝ := ((sampleMean col : ℚ) : ℝ)
  let std_val : ℝ := sampleStd col
  [("max_" ++ metric, mean_val + 0.5 * std_val),
   ("min_" ++ metric, max 0 (mean_val - 0.5 * std_val))]

/-- The function `_compute_metric_thresholds` of efficiencyp2.py.  The
`metric not in group.columns` guard of the source is vacuous here: the
record type carries all four columns. -/
noncomputable def compute_metric_thresholds (g : List BaselineRecord) :
    List (String × ℝ) :=
  ["variance", "std", "abs_slope", "iqr"].foldl
    (fun ths metric => ths ++ metricBounds g metric) []

/-- The steady-state records of one `(ofp, test_case)` group: the rows of
`steady_df` carrying that group key. -/
def steadyGroup (recs : List BaselineRecord) (o t : String) :
    List BaselineRecord :=
  (recs.filter (fun r => r.label = "Steady State")).filter
    (fun r => r.ofp = o ∧ r.test_case = t)

/-- The function `_calculate_dynamic_thresholds` of efficiencyp2.py: restrict to rows
labelled `Steady State`, group by `(ofp, test_case)`, skip groups with fewer
than 3 rows, and key each emitted threshold set by the underscore-joined
pair.  Groups are enumerated in first-occurrence order of their key (pandas
enumerates them sorted; no claim depends on entry order). -/
noncomputable def calculate_dynamic_thresholds (recs : List BaselineRecord) :
    List (String × List (String × ℝ)) :=
  let steady := recs.filter (fun r => r.label = "Steady State")
  let keys := (steady.map (fun r => (r.ofp, r.test_case))).dedup
  keys.filterMap (fun k =>
    let group := steadyGroup recs k.1 k.2
    if group.length < 3 then none
    else some (k.1 ++ "_" ++ k.2, compute_metric_thresholds group))

/-- The metrics mapping holding the per-metric means of a group, used to
state the round-trip property (the `slope` entry, which no executed check
ever reads, is taken from the `abs_slope` column). -/
noncomputable def meanMetrics (g : List BaselineRecord) : Metrics ℝ :=
  { variance := ((sampleMean (g.map (fun r => r.variance)) : ℚ) : ℝ)
    std := ((sampleMean (g.map (fun r => r.std)) : ℚ) : ℝ)
    slope := ((sampleMean (g.map (fun r => r.abs_slope)) : ℚ) : ℝ)
    abs_slope := ((sampleMean (g.map (fun r => r.abs_slope)) : ℚ) : ℝ)
    iqr := ((sampleMean (g.map (fun r => r.iqr)) : ℚ) : ℝ) }

/-! ## SegmentAnalysisPipeline loops (efficiencyp2.py)

`analyze_group` itself is not among the source files; the two per-run loops
are, and their failure-isolation behaviour is independent of the callee, so
`analyze_group` is abstracted as an arbitrary fallible function (an
exception raised while processing one run is its `Except.error` outcome). -/

/-- One row of the second-pass results list, restricted to the fields
`_has_flagged_steady_state` and `_save_flagged_steady_state` read
(`r.get(..., False)` defaults are modelled by the fields being present). -/
structure ResultRow where
  label : String
  flagged : Bool
deriving DecidableEq, Repr

/-- The function `_collect_baseline_metrics` of efficiencyp2.py: run `analyze_group` on
every run id, extend the accumulator with its first component on success,
and skip the run entirely on any exception. -/
def collect_baseline_metrics {R D E : Type}
    (analyze_group : String → Except E (List R × D)) (unique_runs : List String) :
    List R :=
  unique_runs.foldl (fun acc run_id =>
    match analyze_group run_id with
    | .ok res => acc ++ res.1
    | .error _ => acc) []

/-- The function `_has_flagged_steady_state` of efficiencyp2.py: note the label literal
`Steady State`. -/
def has_flagged_steady_state (results : List ResultRow) : Bool :=
  results.any (fun r => r.flagged && r.label = "Steady State")

/-- The row filter of `_save_flagged_steady_state` of efficiencyp2.py: note
the label literal `steady_state` (the column-existence guard of the source
is vacuous here: the row type carries both columns). -/
def save_flagged_filter (results : List ResultRow) : List ResultRow :=
  results.filter (fun r => r.flagged = true ∧ r.label = "steady_state")

/-- The function `_apply_thresholds` of efficiencyp2.py: per run, on success extend the
results and, when a flagged steady-state row is present, record the analyzed
data as flagged; on any exception skip the run entirely. -/
def apply_thresholds {D E : Type}
    (analyze_group : String → Except E (List ResultRow × D))
    (unique_runs : List String) : List ResultRow × List (D × String) :=
  unique_runs.foldl (fun acc run_id =>
    match analyze_group run_id with
    | .ok res =>
        (acc.1 ++ res.1,
         if has_flagged_steady_state res.1 then acc.2 ++ [(res.2, run_id)] else acc.2)
    | .error _ => acc) ([], [])

/-! ## BusFlipDetector (thoughts.py)

Events carry the columns `detect_flips_for_group` reads; the two optional
DC-state columns are `none` when the column is absent from the data (their
values, when present, are the `str(...)` rendering the source applies). -/

/-- One bus-monitor event. -/
structure Event where
  bus : String
  timestamp : ℚ
  decoded_description : String
  dc1_state : Option String
  dc2_state : Option String
deriving DecidableEq, Repr

/-- One detected flip, with all fields `detect_flips_for_group` emits. -/
structure FlipRecord where
  unit_id : String
  station : String
  save : String
  bus_transition : String
  msg_type : Option String
  timestamp_busA : ℚ
  timestamp_busB : ℚ
  timestamp_diff_ms : ℚ
  decoded_description : String
deriving DecidableEq, Repr

/-- The constant `FLIP_THRESHOLD_MS` of thoughts.py. -/
def FLIP_THRESHOLD_MS : ℚ := 100

/-- Match, at the head of `cs`, the tail of the pattern
`\((\d+)-\[([^\]]+)\]-(\d+)\)` after the opening parenthesis, returning the
bracketed group.  Both `\d+` repetitions and `[^\]]+` are deterministic
here: a shorter digit run still faces a digit, and the character class
cannot cross the first closing bracket. -/
def matchAfterParen (cs : List Char) : Option String :=
  let (d1, r1) := cs.span (fun c => c.isDigit)
  if d1.isEmpty then none
  else
    match r1 with
    | '-' :: '[' :: r2 =>
      let (body, r3) := r2.span (fun c => c ≠ ']')
      if body.isEmpty then none
      else
        match r3 with
        | ']' :: '-' :: r4 =>
          let (d2, r5) := r4.span (fun c => c.isDigit)
          if d2.isEmpty then none
          else
            match r5 with
            | ')' :: _ => some (String.mk body)
            | _ => none
        | _ => none
    | _ => none

/-- Search as `re.search` does over the character list: leftmost match wins. -/
def searchPattern : List Char → Option String
  | [] => none
  | c :: rest =>
      match if c = '(' then matchAfterParen rest else none with
      | some s => some s
      | none => searchPattern rest

/-- The function `extract_message_type` of thoughts.py (the null-description case is not
modelled: descriptions here are strings). -/
def extract_message_type (decoded_desc : String) : Option String :=
  searchPattern decoded_desc.data

/-- The function `check_dc_states` of thoughts.py: vacuously true when neither DC column
exists, otherwise true when either present column holds a truthy token
(stripped, upper-cased). -/
def check_dc_states (row : Event) : Bool :=
  match row.dc1_state, row.dc2_state with
  | none, none => true
  | d1, d2 =>
      let active1 := match d1 with
        | some v => ["1", "TRUE", "ON", "YES"].contains v.trim.toUpper
        | none => false
      let active2 := match d2 with
        | some v => ["1", "TRUE", "ON", "YES"].contains v.trim.toUpper
        | none => false
      active1 || active2

/-- The adjacent pairs `(previous, current)` of a list, in order. -/
def adjacentPairs {A : Type} (l : List A) : List (A × A) := l.zip l.tail

/-- The per-pair body of `detect_flips_for_group`: the flip mask (bus
changed, gap under 100 ms, identical decoded description — the `notna`
conjunct is encoded by pairing) followed by the DC-state gate, emitting the
flip record of the source. -/
def flipCheck (unit_id station save : String) (p : Event × Event) :
    Option FlipRecord :=
  let prev := p.1
  let curr := p.2
  let time_diff_ms := (curr.timestamp - prev.timestamp) * 1000
  if curr.bus ≠ prev.bus ∧ time_diff_ms < FLIP_THRESHOLD_MS ∧
      curr.decoded_description = prev.decoded_description then
    if check_dc_states prev ∧ check_dc_states curr then
      some { unit_id := unit_id
             station := station
             save := save
             bus_transition := prev.bus ++ " to " ++ curr.bus
             msg_type := extract_message_type curr.decoded_description
             timestamp_busA := if prev.bus = "A" then prev.timestamp else curr.timestamp
             timestamp_busB := if prev.bus = "B" then prev.timestamp else curr.timestamp
             timestamp_diff_ms := pyRound time_diff_ms 3
             decoded_description := curr.decoded_description }
    else none
  else none

/-- Ascending sort by timestamp, `df.sort_values(...)` (tie order between
equal timestamps is unspecified in pandas and immaterial to the claims). -/
def sortByTimestamp (rows : List Event) : List Event :=
  rows.mergeSort (fun a b => a.timestamp ≤ b.timestamp)

/-- The function `detect_flips_for_group` of thoughts.py. -/
def detect_flips_for_group (unit_id station save : String) (rows : List Event) :
    List FlipRecord :=
  if rows.length < 2 then []
  else (adjacentPairs (sortByTimestamp rows)).filterMap
    (flipCheck unit_id station save)

/-! ## Concrete fixtures (used by witnesses and counterexamples) -/

/-- The number of dynamic checks that failed (the `failed_checks` counter of
`check_dynamic_thresholds` at the end of its loop). -/
def failedDynCount {K : Type} [LinearOrderedField K] [FloorRing K]
    (m : Metrics K) (thresholds : List (String × K)) (round_digits : ℕ := 4) : ℕ :=
  (dynChecks.foldl (dynStep m thresholds round_digits) (0, [])).1

/-- A metrics mapping far above the estin.py fixture thresholds. -/
def mBig : Metrics ℚ := { variance := 10, std := 8, slope := 2, abs_slope := 2, iqr := 5 }

/-- A metrics mapping comfortably inside the estin.py fixture thresholds. -/
def mSmall : Metrics ℚ :=
  { variance := 4 / 5, std := 6 / 5, slope := 1 / 20, abs_slope := 1 / 20, iqr := 1 / 2 }

/-- The fixed thresholds of the legacy configuration (estin.py fixture values). -/
def tFix : FixedThresholds ℚ :=
  { max_variance := 3 / 2, max_std := 2, max_slope := 1 / 2, max_iqr := some 1 }

/-- Three steady-state baseline records of one group (the values of the
estin.py threshold-builder test). -/
def gEx : List BaselineRecord :=
  [{ label := "Steady State", ofp := "ofp1", test_case := "tc1",
     variance := 1 / 2, std := 7 / 10, abs_slope := 1 / 100, iqr := 3 / 10 },
   { label := "Steady State", ofp := "ofp1", test_case := "tc1",
     variance := 3 / 5, std := 4 / 5, abs_slope := 1 / 50, iqr := 2 / 5 },
   { label := "Steady State", ofp := "ofp1", test_case := "tc1",
     variance := 2 / 5, std := 3 / 5, abs_slope := 3 / 200, iqr := 7 / 20 }]

/-- A fully-populated dynamic threshold set (estin.py fixture values, under
the keys `check_dynamic_thresholds` actually reads). -/
def thsEx : List (String × ℚ) :=
  [("min_variance", 1 / 10), ("max_variance", 3 / 2), ("min_std", 1 / 5),
   ("max_std", 2), ("min_slope", 0), ("max_slope", 1 / 2),
   ("min_iqr", 1 / 10), ("max_iqr", 3 / 2)]

/-- A dynamic-thresholds dictionary holding some other group only. -/
def dynOther : List (String × List (String × ℚ)) := [("otherofp_tc9", thsEx)]

/-- Bus events of the worked spec example: bus A at t = 0 and bus B 50 ms
later, identical payload, no DC columns. -/
def eA : Event :=
  { bus := "A", timestamp := 0, decoded_description := "X",
    dc1_state := none, dc2_state := none }

/-- See `eA`. -/
def eB : Event :=
  { bus := "B", timestamp := 1 / 20, decoded_description := "X",
    dc1_state := none, dc2_state := none }

/-- Like `eB` but 150 ms after `eA`. -/
def eBlate : Event :=
  { bus := "B", timestamp := 3 / 20, decoded_description := "X",
    dc1_state := none, dc2_state := none }

/-- Like `eB` but with a different payload. -/
def eBdiff : Event :=
  { bus := "B", timestamp := 1 / 20, decoded_description := "Y",
    dc1_state := none, dc2_state := none }

/-- A results table whose rows are all labelled `Steady State`, one flagged. -/
def rowsAllTitle : List ResultRow := [{ label := "Steady State", flagged := true }]

/-- A concrete `analyze_group` stand-in: one failing run, one succeeding. -/
def analyzeEx : String → Except Unit (List ResultRow × Unit) := fun run_id =>
  if run_id = "run1" then .error ()
  else .ok ([{ label := "Steady State", flagged := true }], ())

end Dionysus

/-! # Lemmas and claims -/

namespace Dionysus

section EvaluatorLemmas

variable {K : Type} [LinearOrderedField K] [FloorRing K]
variable (m : Metrics K) (ths : List (String × K)) (d : ℕ)

/-- A skipped check leaves the accumulator unchanged. -/
lemma dynStep_skip {ck : String × String} (acc : ℕ × List String)
    (h : checkOneDynamic m ths ck.1 ck.2 d = none) :
    dynStep m ths d acc ck = acc := by
  simp [dynStep, h]

/-- One step raises the failure count by at most one. -/
lemma dynStep_fst_le (acc : ℕ × List String) (ck : String × String) :
    (dynStep m ths d acc ck).1 ≤ acc.1 + 1 := by
  unfold dynStep
  cases h : checkOneDynamic m ths ck.1 ck.2 d with
  | none => simp
  | some p =>
    cases p with
    | mk b r => cases b <;> simp

/-- The failed-checks/reasons fold appends exactly one reason per counted
failure, and counts at most one failure per check. -/
lemma foldl_dynStep_shape :
    ∀ (l : List (String × String)) (n : ℕ) (rs : List String),
      ∃ (k : ℕ) (extra : List String), k ≤ l.length ∧ extra.length = k ∧
        l.foldl (dynStep m ths d) (n, rs) = (n + k, rs ++ extra) := by
  intro l
  induction l with
  | nil => intro n rs; exact ⟨0, [], by simp, rfl, by simp⟩
  | cons c l ih =>
    intro n rs
    have hstep : dynStep m ths d (n, rs) c = (n, rs) ∨
        ∃ r, dynStep m ths d (n, rs) c = (n + 1, rs ++ [r]) := by
      unfold dynStep
      cases h : checkOneDynamic m ths c.1 c.2 d with
      | none => exact Or.inl rfl
      | some p =>
        cases p with
        | mk b r => cases b <;> simp
    rcases hstep with h | ⟨r, h⟩
    · obtain ⟨k, extra, hk, hlen, heq⟩ := ih n rs
      exact ⟨k, extra, hk.trans (by simp), hlen, by simpa [List.foldl, h] using heq⟩
    · obtain ⟨k, extra, hk, hlen, heq⟩ := ih (n + 1) (rs ++ [r])
      refine ⟨k + 1, r :: extra, by simpa using hk, by simpa using hlen, ?_⟩
      have : (c :: l).foldl (dynStep m ths d) (n, rs) =
          l.foldl (dynStep m ths d) (n + 1, rs ++ [r]) := by
        simp [List.foldl, h]
      rw [this, heq]
      have h1 : n + 1 + k = n + (k + 1) := by omega
      have h2 : rs ++ [r] ++ extra = rs ++ r :: extra := by simp
      rw [h1, h2]

end EvaluatorLemmas

/-- C1: for every metrics mapping containing the four tracked metrics (the
field type `Metrics` carries them all) and every threshold set, the reason
list returned by `check_dynamic_thresholds` and by `check_fixed_thresholds`
has length 0 or exactly 4; in particular, whenever fewer than 4 of the
dynamic metric checks fail, the dynamic reason list is empty. -/
theorem C1_reason_list_length_zero_or_four {K : Type}
    [LinearOrderedField K] [FloorRing K] :
    ∀ (m : Metrics K) (ths : List (String × K)) (t : FixedThresholds K) (d : ℕ),
      ((check_dynamic_thresholds m ths d).length = 0 ∨
        (check_dynamic_thresholds m ths d).length = 4) ∧
      (failedDynCount m ths d < 4 → check_dynamic_thresholds m ths d = []) ∧
      ((check_fixed_thresholds m t).length = 0 ∨
        (check_fixed_thresholds m t).length = 4) := by
  intro m ths t d
  obtain ⟨k, extra, hk, hlen, heq⟩ := foldl_dynStep_shape m ths d dynChecks 0 []
  have hk4 : k ≤ 4 := by simpa [dynChecks] using hk
  refine ⟨?_, ?_, ?_⟩
  · unfold check_dynamic_thresholds
    rw [heq]
    simp only [Nat.zero_add, List.nil_append]
    by_cases hlt : k < 4
    · rw [if_pos hlt]; left; rfl
    · rw [if_neg hlt]; right; omega
  · intro hcount
    unfold failedDynCount at hcount
    rw [heq] at hcount
    unfold check_dynamic_thresholds
    rw [heq]
    simp only [if_pos hcount]
  · unfold check_fixed_thresholds
    have hle : ((fixedChecks m t).filter (fun c => c.1)).length ≤ 4 := by
      have := List.length_filter_le (fun c : Bool × String => c.1) (fixedChecks m t)
      simpa [fixedChecks] using this
    by_cases hlt : ((fixedChecks m t).filter (fun c => c.1)).length < 4
    · simp [hlt]
    · right
      have h4 : ((fixedChecks m t).filter (fun c => c.1)).length = 4 := by omega
      simp [hlt, h4]

section ThresholdLemmas

variable {K : Type} [LinearOrderedField K] [FloorRing K]

/-- The failure bit of `check_threshold` in terms of the rounded comparison. -/
lemma check_threshold_fst_iff (v mn mx : K) (name : String) (d : ℕ) :
    (check_threshold v mn mx name d).1 = true ↔
      (pyRound v d < pyRound mn d ∨ pyRound mx d < pyRound v d) := by
  simp only [check_threshold]
  split_ifs <;> simp_all

/-- A value between the bounds (after rounding) never fails `check_threshold`. -/
lemma check_threshold_pass {v mn mx : K} (name : String) (d : ℕ)
    (h1 : pyRound mn d ≤ pyRound v d) (h2 : pyRound v d ≤ pyRound mx d) :
    (check_threshold v mn mx name d).1 = false := by
  simp only [check_threshold]
  rw [if_neg (not_lt.2 h1), if_neg (not_lt.2 h2)]

end ThresholdLemmas

/-- C4: threshold comparison happens on the value and bounds rounded to 4
decimal places — `check_threshold` fails exactly when the rounded value
falls below the rounded min (reported as the low failure) or above the
rounded max (reported as the high failure, when not already low); a dynamic
metric whose min or max key is absent from the threshold set is skipped
entirely; and `check_fixed_thresholds` enforces only upper bounds: a metric
fails exactly when its raw value exceeds the configured max (missing
`max_iqr` defaulting to 1), with no lower-bound comparison anywhere. -/
theorem C4_rounded_comparison_and_fixed_upper_only {K : Type}
    [LinearOrderedField K] [FloorRing K] :
    (∀ (v mn mx : K) (name : String) (d : ℕ),
        ((check_threshold v mn mx name d).1 = true ↔
          (pyRound v d < pyRound mn d ∨ pyRound mx d < pyRound v d))) ∧
    (∀ (v mn mx : K) (name : String) (d : ℕ),
        pyRound v d < pyRound mn d →
        check_threshold v mn mx name d = (true, name ++ " below min (dynamic)")) ∧
    (∀ (v mn mx : K) (name : String) (d : ℕ),
        ¬ pyRound v d < pyRound mn d → pyRound mx d < pyRound v d →
        check_threshold v mn mx name d = (true, name ++ " above max (dynamic)")) ∧
    (∀ (m : Metrics K) (ths : List (String × K)) (key lbl : String) (d : ℕ),
        (ths.lookup ("min_" ++ key) = none ∨ ths.lookup ("max_" ++ key) = none) →
        checkOneDynamic m ths key lbl d = none) ∧
    (∀ (m : Metrics K) (t : FixedThresholds K),
        (check_fixed_thresholds m t ≠ [] ↔
          (m.variance > t.max_variance ∧ m.std > t.max_std ∧
           m.abs_slope > t.max_slope ∧ m.iqr > t.max_iqr.getD 1))) := by
  refine ⟨check_threshold_fst_iff, ?_, ?_, ?_, ?_⟩
  · intro v mn mx name d h
    simp only [check_threshold]
    rw [if_pos h]
  · intro v mn mx name d h1 h2
    simp only [check_threshold]
    rw [if_neg h1, if_pos h2]
  · intro m ths key lbl d h
    unfold checkOneDynamic
    rcases h with h | h
    · rw [h]
    · rw [h]
      cases ths.lookup ("min_" ++ key) <;> rfl
  · intro m t
    unfold check_fixed_thresholds fixedChecks
    by_cases h1 : m.variance > t.max_variance <;>
      by_cases h2 : m.std > t.max_std <;>
        by_cases h3 : m.abs_slope > t.max_slope <;>
          by_cases h4 : m.iqr > t.max_iqr.getD 1 <;>
            simp [List.filter, h1, h2, h3, h4]

section ComputeLemmas

/-- The keys `_compute_metric_thresholds` emits never include `min_slope`:
the slope bounds are keyed `abs_slope`. -/
lemma lookup_compute_min_slope (g : List BaselineRecord) :
    (compute_metric_thresholds g).lookup "min_slope" = none := by
  simp [compute_metric_thresholds, metricBounds, List.lookup]

/-- Likewise `max_slope` is never present. -/
lemma lookup_compute_max_slope (g : List BaselineRecord) :
    (compute_metric_thresholds g).lookup "max_slope" = none := by
  simp [compute_metric_thresholds, metricBounds, List.lookup]

/-- The slope check is always skipped against a built threshold set, so the
all-4 gate of `check_dynamic_thresholds` can never be reached: the result is
empty for every metrics mapping. -/
lemma check_dynamic_on_compute_empty (m : Metrics ℝ)
    (g : List BaselineRecord) (d : ℕ) :
    check_dynamic_thresholds m (compute_metric_thresholds g) d = [] := by
  have hskip : ∀ acc, dynStep m (compute_metric_thresholds g) d acc
      ("slope", "Slope") = acc := by
    intro acc
    refine dynStep_skip m (compute_metric_thresholds g) d acc ?_
    have : ("min_" ++ "slope" : String) = "min_slope" := rfl
    simp [checkOneDynamic, this, lookup_compute_min_slope g]
  unfold check_dynamic_thresholds
  simp only [dynChecks, List.foldl_cons, List.foldl_nil]
  rw [hskip]
  have h1 := dynStep_fst_le m (compute_metric_thresholds g) d (0, [])
    ("variance", "Variance")
  have h2 := dynStep_fst_le m (compute_metric_thresholds g) d
    (dynStep m (compute_metric_thresholds g) d (0, []) ("variance", "Variance"))
    ("std", "Std")
  have h3 := dynStep_fst_le m (compute_metric_thresholds g) d
    (dynStep m (compute_metric_thresholds g) d
      (dynStep m (compute_metric_thresholds g) d (0, []) ("variance", "Variance"))
      ("std", "Std"))
    ("iqr", "IQR")
  rw [if_pos (by omega)]

end ComputeLemmas

/-- C5: `check_dynamic_thresholds` looks the slope check up under
`min_slope`/`max_slope`, while `_compute_metric_thresholds` only ever emits
`min_abs_slope`/`max_abs_slope`; hence against any threshold set the builder
produces, the slope check never executes, the all-4-failed condition is
unreachable, and the dynamic-threshold path returns the empty reason list
for every metrics mapping. -/
theorem C5_key_mismatch_dynamic_path_never_flags :
    (∀ g : List BaselineRecord,
        (compute_metric_thresholds g).lookup "min_slope" = none ∧
        (compute_metric_thresholds g).lookup "max_slope" = none) ∧
    (∀ (m : Metrics ℝ) (g : List BaselineRecord) (d : ℕ),
        check_dynamic_thresholds m (compute_metric_thresholds g) d = []) :=
  ⟨fun g => ⟨lookup_compute_min_slope g, lookup_compute_max_slope g⟩,
   check_dynamic_on_compute_empty⟩

section RoundingMonotone

variable {K : Type} [LinearOrderedField K] [FloorRing K]

/-- The half-even rounding never drops below the floor. -/
lemma roundHalfEven_ge_floor (x : K) : ⌊x⌋ ≤ roundHalfEven x := by
  simp only [roundHalfEven]
  split_ifs <;> omega

/-- The half-even rounding never exceeds the floor plus one. -/
lemma roundHalfEven_le_floor_add_one (x : K) : roundHalfEven x ≤ ⌊x⌋ + 1 := by
  simp only [roundHalfEven]
  split_ifs <;> omega

/-- Half-even rounding is monotone. -/
lemma roundHalfEven_mono {x y : K} (h : x ≤ y) :
    roundHalfEven x ≤ roundHalfEven y := by
  have hf : ⌊x⌋ ≤ ⌊y⌋ := Int.floor_mono h
  rcases lt_or_eq_of_le hf with hlt | heqf
  · calc roundHalfEven x ≤ ⌊x⌋ + 1 := roundHalfEven_le_floor_add_one x
      _ ≤ ⌊y⌋ := by omega
      _ ≤ roundHalfEven y := roundHalfEven_ge_floor y
  · by_cases h1 : x - (⌊x⌋ : K) < 1 / 2
    · have hx : roundHalfEven x = ⌊x⌋ := by
        simp only [roundHalfEven]
        rw [if_pos h1]
      rw [hx, heqf]
      exact roundHalfEven_ge_floor y
    · by_cases h2 : (1 : K) / 2 < y - (⌊y⌋ : K)
      · have hy : roundHalfEven y = ⌊y⌋ + 1 := by
          simp only [roundHalfEven]
          rw [if_neg (by linarith), if_pos h2]
        rw [hy, ← heqf]
        exact roundHalfEven_le_floor_add_one x
      · have hcast : ((⌊x⌋ : K)) = ((⌊y⌋ : K)) := by exact_mod_cast heqf
        have hxy : x = y := by
          have e2 : (1 : K) / 2 ≤ x - (⌊x⌋ : K) := not_lt.1 h1
          have e3 : y - (⌊y⌋ : K) ≤ 1 / 2 := not_lt.1 h2
          linarith
        rw [hxy]

/-- The rounding `pyRound` is monotone at every digit count. -/
lemma pyRound_mono (d : ℕ) {x y : K} (h : x ≤ y) : pyRound x d ≤ pyRound y d := by
  unfold pyRound
  have hp : (0 : K) < (10 : K) ^ d := by positivity
  have hr : roundHalfEven (x * (10 : K) ^ d) ≤ roundHalfEven (y * (10 : K) ^ d) :=
    roundHalfEven_mono (mul_le_mul_of_nonneg_right h hp.le)
  exact (div_le_div_iff_of_pos_right hp).2 (by exact_mod_cast hr)

end RoundingMonotone

section BuilderLemmas

/-- The mean of a non-negative sample is non-negative. -/
lemma sampleMean_nonneg {xs : List ℚ} (h : ∀ x ∈ xs, 0 ≤ x) : 0 ≤ sampleMean xs :=
  div_nonneg (List.sum_nonneg h) (Nat.cast_nonneg _)

/-- The sample standard deviation is non-negative. -/
lemma sampleStd_nonneg (xs : List ℚ) : 0 ≤ sampleStd xs := Real.sqrt_nonneg _

/-- The bounds `_compute_metric_thresholds` emits for each tracked metric. -/
lemma lookup_compute_bounds (g : List BaselineRecord) {metric : String}
    (hm : metric ∈ (["variance", "std", "abs_slope", "iqr"] : List String)) :
    (compute_metric_thresholds g).lookup ("max_" ++ metric) =
      some (((sampleMean (g.map (fun r => r.col metric)) : ℚ) : ℝ) +
        0.5 * sampleStd (g.map (fun r => r.col metric))) ∧
    (compute_metric_thresholds g).lookup ("min_" ++ metric) =
      some (max 0 (((sampleMean (g.map (fun r => r.col metric)) : ℚ) : ℝ) -
        0.5 * sampleStd (g.map (fun r => r.col metric)))) := by
  fin_cases hm <;>
    exact ⟨by simp [compute_metric_thresholds, metricBounds, List.lookup],
           by simp [compute_metric_thresholds, metricBounds, List.lookup]⟩

/-- A record of a non-negative group has a non-negative value in each
tracked metric column. -/
lemma col_nonneg {g : List BaselineRecord}
    (hnn : ∀ r ∈ g, 0 ≤ r.variance ∧ 0 ≤ r.std ∧ 0 ≤ r.abs_slope ∧ 0 ≤ r.iqr)
    {metric : String}
    (hm : metric ∈ (["variance", "std", "abs_slope", "iqr"] : List String)) :
    ∀ x ∈ g.map (fun r => r.col metric), 0 ≤ x := by
  intro x hx
  obtain ⟨r, hr, rfl⟩ := List.mem_map.1 hx
  have h4 := hnn r hr
  have hcases : metric = "variance" ∨ metric = "std" ∨
      metric = "abs_slope" ∨ metric = "iqr" := by simpa using hm
  rcases hcases with rfl | rfl | rfl | rfl <;> simp [BaselineRecord.col] <;> tauto

/-- For a group of non-negative records, each emitted min bound is
non-negative and the bounds bracket the group mean. -/
lemma compute_bounds_spec (g : List BaselineRecord)
    (hnn : ∀ r ∈ g, 0 ≤ r.variance ∧ 0 ≤ r.std ∧ 0 ≤ r.abs_slope ∧ 0 ≤ r.iqr)
    {metric : String}
    (hm : metric ∈ (["variance", "std", "abs_slope", "iqr"] : List String)) :
    ∃ mn mx,
      (compute_metric_thresholds g).lookup ("min_" ++ metric) = some mn ∧
      (compute_metric_thresholds g).lookup ("max_" ++ metric) = some mx ∧
      0 ≤ mn ∧
      mn ≤ ((sampleMean (g.map (fun r => r.col metric)) : ℚ) : ℝ) ∧
      ((sampleMean (g.map (fun r => r.col metric)) : ℚ) : ℝ) ≤ mx := by
  obtain ⟨hmax, hmin⟩ := lookup_compute_bounds g hm
  have hq : 0 ≤ sampleMean (g.map (fun r => r.col metric)) :=
    sampleMean_nonneg (col_nonneg hnn hm)
  have hμ : (0 : ℝ) ≤ ((sampleMean (g.map (fun r => r.col metric)) : ℚ) : ℝ) := by
    exact_mod_cast hq
  have hc : (0 : ℝ) ≤ 0.5 * sampleStd (g.map (fun r => r.col metric)) := by
    have := sampleStd_nonneg (g.map (fun r => r.col metric))
    linarith
  refine ⟨_, _, hmin, hmax, le_max_left _ _, max_le hμ (by linarith), by linarith⟩

/-- Membership in the builder output characterized: an entry exists exactly
for the steady-state groups of size at least 3, keyed by the
underscore-joined pair and carrying the bounds of
`_compute_metric_thresholds`. -/
lemma mem_calculate_dynamic_thresholds {recs : List BaselineRecord}
    {k : String} {ts : List (String × ℝ)} :
    (k, ts) ∈ calculate_dynamic_thresholds recs ↔
      ∃ o t, k = o ++ "_" ++ t ∧ 3 ≤ (steadyGroup recs o t).length ∧
        ts = compute_metric_thresholds (steadyGroup recs o t) := by
  constructor
  · intro h
    simp only [calculate_dynamic_thresholds, List.mem_filterMap] at h
    obtain ⟨⟨o, t⟩, _, hf⟩ := h
    by_cases hlen : (steadyGroup recs o t).length < 3
    · rw [if_pos hlen] at hf
      cases hf
    · rw [if_neg hlen] at hf
      obtain ⟨hk, hts⟩ := Prod.mk.injEq .. ▸ Option.some.inj hf
      exact ⟨o, t, hk.symm, by omega, hts.symm⟩
  · rintro ⟨o, t, rfl, hlen, rfl⟩
    simp only [calculate_dynamic_thresholds, List.mem_filterMap]
    refine ⟨(o, t), ?_, ?_⟩
    · have hne : steadyGroup recs o t ≠ [] := by
        intro hnil
        rw [hnil] at hlen
        simp at hlen
      obtain ⟨r, hr⟩ := List.exists_mem_of_ne_nil _ hne
      have hr2 := hr
      unfold steadyGroup at hr2
      rw [List.mem_filter] at hr2
      obtain ⟨hrsteady, hrkey⟩ := hr2
      have hkey : r.ofp = o ∧ r.test_case = t := by simpa using hrkey
      rw [List.mem_dedup, List.mem_map]
      exact ⟨r, hrsteady, by rw [hkey.1, hkey.2]⟩
    · rw [if_neg (not_lt.2 hlen)]

end BuilderLemmas

/-- C3: the dynamic threshold builder groups steady-state baseline records
by the `(ofp, test_case)` key: its output holds an entry exactly for each
group of at least 3 records, keyed by the underscore-joined pair and
carrying, for each tracked metric, the max bound mean plus half a sample
standard deviation and the min bound the same below the mean clamped at
zero; groups with fewer than 3 records yield no entry. -/
theorem C3_builder_grouping_and_bounds :
    (∀ (recs : List BaselineRecord) (k : String) (ts : List (String × ℝ)),
        ((k, ts) ∈ calculate_dynamic_thresholds recs ↔
          ∃ o t, k = o ++ "_" ++ t ∧ 3 ≤ (steadyGroup recs o t).length ∧
            ts = compute_metric_thresholds (steadyGroup recs o t))) ∧
    (∀ (g : List BaselineRecord),
      ∀ metric ∈ (["variance", "std", "abs_slope", "iqr"] : List String),
        (compute_metric_thresholds g).lookup ("max_" ++ metric) =
          some (((sampleMean (g.map (fun r => r.col metric)) : ℚ) : ℝ) +
            0.5 * sampleStd (g.map (fun r => r.col metric))) ∧
        (compute_metric_thresholds g).lookup ("min_" ++ metric) =
          some (max 0 (((sampleMean (g.map (fun r => r.col metric)) : ℚ) : ℝ) -
            0.5 * sampleStd (g.map (fun r => r.col metric))))) :=
  ⟨fun _ _ _ => mem_calculate_dynamic_thresholds,
   fun g _ hm => lookup_compute_bounds g hm⟩

/-- C6: evaluating the per-metric means of a group of at least 3
non-negative baseline records against the threshold set built from that
same group never flags: the reason list is empty, and for each tracked
metric the rounded mean lies between the rounded emitted bounds, so the
check does not fail. -/
theorem C6_round_trip_mean_never_flags :
    ∀ g : List BaselineRecord, 3 ≤ g.length →
      (∀ r ∈ g, 0 ≤ r.variance ∧ 0 ≤ r.std ∧ 0 ≤ r.abs_slope ∧ 0 ≤ r.iqr) →
      check_dynamic_thresholds (meanMetrics g) (compute_metric_thresholds g) 4 = [] ∧
      (∀ metric ∈ (["variance", "std", "abs_slope", "iqr"] : List String),
        ∃ mn mx,
          (compute_metric_thresholds g).lookup ("min_" ++ metric) = some mn ∧
          (compute_metric_thresholds g).lookup ("max_" ++ metric) = some mx ∧
          pyRound mn 4 ≤
            pyRound ((sampleMean (g.map (fun r => r.col metric)) : ℚ) : ℝ) 4 ∧
          pyRound ((sampleMean (g.map (fun r => r.col metric)) : ℚ) : ℝ) 4 ≤
            pyRound mx 4 ∧
          (check_threshold ((sampleMean (g.map (fun r => r.col metric)) : ℚ) : ℝ)
            mn mx metric 4).1 = false) := by
  intro g _ hnn
  refine ⟨check_dynamic_on_compute_empty (meanMetrics g) g 4, ?_⟩
  intro metric hm
  obtain ⟨mn, mx, hmin, hmax, _, hlo, hhi⟩ := compute_bounds_spec g hnn hm
  exact ⟨mn, mx, hmin, hmax, pyRound_mono 4 hlo, pyRound_mono 4 hhi,
    check_threshold_pass metric 4 (pyRound_mono 4 hlo) (pyRound_mono 4 hhi)⟩

/-- The fixture group has three records. -/
lemma gEx_length : 3 ≤ gEx.length := by decide

/-- The fixture group has non-negative metric values. -/
lemma gEx_nonneg :
    ∀ r ∈ gEx, 0 ≤ r.variance ∧ 0 ≤ r.std ∧ 0 ≤ r.abs_slope ∧ 0 ≤ r.iqr := by
  intro r hr
  fin_cases hr <;> refine ⟨by norm_num, by norm_num, by norm_num, by norm_num⟩

/-- The fixture group is the `(ofp1, tc1)` steady-state group of itself. -/
lemma gEx_steadyGroup : steadyGroup gEx "ofp1" "tc1" = gEx := by
  simp [steadyGroup, gEx]

/-- C6 witness: the round-trip theorem applied to the concrete three-record
group `gEx`. -/
theorem C6_witness :
    3 ≤ gEx.length ∧
    (∀ r ∈ gEx, 0 ≤ r.variance ∧ 0 ≤ r.std ∧ 0 ≤ r.abs_slope ∧ 0 ≤ r.iqr) ∧
    check_dynamic_thresholds (meanMetrics gEx) (compute_metric_thresholds gEx) 4 = [] :=
  ⟨gEx_length, gEx_nonneg,
   (C6_round_trip_mean_never_flags gEx gEx_length gEx_nonneg).1⟩

/-- C7: every min bound emitted by the dynamic threshold builder is
non-negative, and — when the baseline metric values are non-negative, as
variance, std, abs_slope and iqr are — the bounds of each entry bracket the
mean of the corresponding group metric column. -/
theorem C7_min_nonneg_bounds_bracket_mean :
    ∀ (recs : List BaselineRecord) (k : String) (ts : List (String × ℝ)),
      (k, ts) ∈ calculate_dynamic_thresholds recs →
      (∀ r ∈ recs, 0 ≤ r.variance ∧ 0 ≤ r.std ∧ 0 ≤ r.abs_slope ∧ 0 ≤ r.iqr) →
      ∀ metric ∈ (["variance", "std", "abs_slope", "iqr"] : List String),
        ∃ (mn mx : ℝ) (o t : String), k = o ++ "_" ++ t ∧
          ts.lookup ("min_" ++ metric) = some mn ∧
          ts.lookup ("max_" ++ metric) = some mx ∧
          0 ≤ mn ∧
          mn ≤ ((sampleMean ((steadyGroup recs o t).map (fun r => r.col metric)) : ℚ) : ℝ) ∧
          ((sampleMean ((steadyGroup recs o t).map (fun r => r.col metric)) : ℚ) : ℝ) ≤ mx := by
  intro recs k ts hmem hnn metric hm
  obtain ⟨o, t, rfl, _, rfl⟩ := mem_calculate_dynamic_thresholds.1 hmem
  have hgnn : ∀ r ∈ steadyGroup recs o t,
      0 ≤ r.variance ∧ 0 ≤ r.std ∧ 0 ≤ r.abs_slope ∧ 0 ≤ r.iqr := by
    intro r hr
    have hr1 : r ∈ recs.filter (fun r => r.label = "Steady State") :=
      (List.mem_filter.1 hr).1
    exact hnn r (List.mem_filter.1 hr1).1
  obtain ⟨mn, mx, hmin, hmax, h0, hlo, hhi⟩ :=
    compute_bounds_spec (steadyGroup recs o t) hgnn hm
  exact ⟨mn, mx, o, t, rfl, hmin, hmax, h0, hlo, hhi⟩

/-- C7 witness: the bracketing theorem applied to the builder output for the
concrete group `gEx` at the variance metric. -/
theorem C7_witness :
    ("ofp1" ++ "_" ++ "tc1",
      compute_metric_thresholds (steadyGroup gEx "ofp1" "tc1")) ∈
        calculate_dynamic_thresholds gEx ∧
    (∃ (mn mx : ℝ) (o t : String), ("ofp1" ++ "_" ++ "tc1" : String) = o ++ "_" ++ t ∧
      (compute_metric_thresholds (steadyGroup gEx "ofp1" "tc1")).lookup
        ("min_" ++ "variance") = some mn ∧
      (compute_metric_thresholds (steadyGroup gEx "ofp1" "tc1")).lookup
        ("max_" ++ "variance") = some mx ∧
      0 ≤ mn ∧
      mn ≤ ((sampleMean ((steadyGroup gEx o t).map (fun r => r.col "variance")) : ℚ) : ℝ) ∧
      ((sampleMean ((steadyGroup gEx o t).map (fun r => r.col "variance")) : ℚ) : ℝ) ≤ mx) := by
  have hmem : ("ofp1" ++ "_" ++ "tc1",
      compute_metric_thresholds (steadyGroup gEx "ofp1" "tc1")) ∈
        calculate_dynamic_thresholds gEx :=
    mem_calculate_dynamic_thresholds.2
      ⟨"ofp1", "tc1", rfl, by rw [gEx_steadyGroup]; exact gEx_length, rfl⟩
  exact ⟨hmem,
    C7_min_nonneg_bounds_bracket_mean gEx _ _ hmem gEx_nonneg "variance" (by simp)⟩

section FlipLemmas

/-- A `filterMap` keeps exactly the elements the function maps to `some`. -/
lemma length_filterMap_eq_length_filter {B C : Type} (f : B → Option C) :
    ∀ l : List B, (l.filterMap f).length = (l.filter (fun b => (f b).isSome)).length := by
  intro l
  induction l with
  | nil => rfl
  | cons a l ih => cases h : f a <;> simp [List.filterMap_cons, List.filter_cons, h, ih]

/-- The flip conditions of one adjacent pair, as the source mask plus the
DC gate state them. -/
def flipConditions (p : Event × Event) : Prop :=
  p.2.bus ≠ p.1.bus ∧
  (p.2.timestamp - p.1.timestamp) * 1000 < FLIP_THRESHOLD_MS ∧
  p.2.decoded_description = p.1.decoded_description ∧
  check_dc_states p.1 = true ∧ check_dc_states p.2 = true

instance (p : Event × Event) : Decidable (flipConditions p) := by
  unfold flipConditions
  infer_instance

/-- One adjacent pair yields a flip record exactly when the flip mask and
the DC gate all hold. -/
lemma flipCheck_isSome_iff (u s sv : String) (p : Event × Event) :
    (flipCheck u s sv p).isSome ↔ flipConditions p := by
  simp only [flipCheck, flipConditions]
  split_ifs <;> simp_all

/-- The two-event example list is already sorted. -/
lemma sort_pair_sorted {a b : Event} (h : a.timestamp ≤ b.timestamp) :
    sortByTimestamp [a, b] = [a, b] := by
  unfold sortByTimestamp
  apply List.mergeSort_of_sorted
  simp [h]

end FlipLemmas

/-- C2: per adjacent pair of the timestamp-sorted group, exactly one flip
record is emitted iff the bus changed, the gap is strictly under 100 ms,
the decoded description matches, and both rows pass the DC-state check (a
no-DC-column pair passes vacuously); the worked examples behave as the spec
states (one flip `A to B` with a 50.000 ms gap; zero flips for a differing
payload or a 150 ms gap), and groups of fewer than two events yield no
flips. -/
theorem C2_flip_detection :
    (∀ (u s sv : String) (rows : List Event),
        detect_flips_for_group u s sv rows =
          (adjacentPairs (sortByTimestamp rows)).filterMap (flipCheck u s sv)) ∧
    (∀ (u s sv : String) (p : Event × Event),
        (flipCheck u s sv p).isSome ↔ flipConditions p) ∧
    (∀ (u s sv : String) (rows : List Event),
        (detect_flips_for_group u s sv rows).length =
          ((adjacentPairs (sortByTimestamp rows)).filter
            (fun p => decide (flipConditions p))).length) ∧
    detect_flips_for_group "u" "s" "sv" [eA, eB] =
      [{ unit_id := "u", station := "s", save := "sv", bus_transition := "A to B",
         msg_type := none, timestamp_busA := 0, timestamp_busB := 1 / 20,
         timestamp_diff_ms := 50, decoded_description := "X" }] ∧
    detect_flips_for_group "u" "s" "sv" [eA, eBdiff] = [] ∧
    detect_flips_for_group "u" "s" "sv" [eA, eBlate] = [] ∧
    (∀ u s sv : String, detect_flips_for_group u s sv [] = []) ∧
    (∀ (u s sv : String) (e : Event), detect_flips_for_group u s sv [e] = []) := by
  have hdef : ∀ (u s sv : String) (rows : List Event),
      detect_flips_for_group u s sv rows =
        (adjacentPairs (sortByTimestamp rows)).filterMap (flipCheck u s sv) := by
    intro u s sv rows
    by_cases h : rows.length < 2
    · rw [detect_flips_for_group, if_pos h]
      rcases rows with _ | ⟨a, _ | ⟨b, rest⟩⟩
      · simp [sortByTimestamp, adjacentPairs]
      · simp [sortByTimestamp, adjacentPairs]
      · simp only [List.length_cons] at h
        omega
    · rw [detect_flips_for_group, if_neg h]
  refine ⟨hdef, flipCheck_isSome_iff, ?_, ?_, ?_, ?_, ?_, ?_⟩
  · intro u s sv rows
    rw [hdef, length_filterMap_eq_length_filter]
    congr 1
    apply List.filter_congr
    intro p _
    rw [Bool.eq_iff_iff]
    simp [flipCheck_isSome_iff]
  · have hs : sortByTimestamp [eA, eB] = [eA, eB] :=
      sort_pair_sorted (by norm_num [eA, eB])
    rw [hdef, hs]
    simp only [adjacentPairs, List.zip, List.tail]
    norm_num [flipCheck, check_dc_states, extract_message_type, searchPattern,
      matchAfterParen, pyRound, roundHalfEven, FLIP_THRESHOLD_MS, eA, eB,
      List.filterMap_cons]
    simp
  · have hs : sortByTimestamp [eA, eBdiff] = [eA, eBdiff] :=
      sort_pair_sorted (by norm_num [eA, eBdiff])
    rw [hdef, hs]
    simp only [adjacentPairs, List.zip, List.tail]
    norm_num [flipCheck, check_dc_states, FLIP_THRESHOLD_MS, eA, eBdiff,
      List.filterMap_cons]
    simp
  · have hs : sortByTimestamp [eA, eBlate] = [eA, eBlate] :=
      sort_pair_sorted (by norm_num [eA, eBlate])
    rw [hdef, hs]
    simp only [adjacentPairs, List.zip, List.tail]
    norm_num [flipCheck, check_dc_states, FLIP_THRESHOLD_MS, eA, eBlate,
      List.filterMap_cons]
  · intro u s sv
    rfl
  · intro u s sv e
    rfl

section PipelineLemmas

/-- The baseline loop with an arbitrary accumulator: successes contribute
their result rows in order, failures contribute nothing. -/
lemma collect_go {R D E : Type} (analyze : String → Except E (List R × D)) :
    ∀ (runs : List String) (acc : List R),
      runs.foldl (fun acc run_id =>
        match analyze run_id with
        | .ok res => acc ++ res.1
        | .error _ => acc) acc =
      acc ++ (runs.filterMap (fun run => (analyze run).toOption.map Prod.fst)).flatten := by
  intro runs
  induction runs with
  | nil => intro acc; simp
  | cons r rs ih =>
    intro acc
    cases h : analyze r with
    | ok res => simp [List.foldl, h, ih, Except.toOption]
    | error e => simp [List.foldl, h, ih, Except.toOption]

/-- The flagging loop with an arbitrary accumulator. -/
lemma apply_go {D E : Type} (analyze : String → Except E (List ResultRow × D)) :
    ∀ (runs : List String) (acc : List ResultRow × List (D × String)),
      runs.foldl (fun acc run_id =>
        match analyze run_id with
        | .ok res =>
            (acc.1 ++ res.1,
             if has_flagged_steady_state res.1 then acc.2 ++ [(res.2, run_id)] else acc.2)
        | .error _ => acc) acc =
      (acc.1 ++ (runs.filterMap (fun run => (analyze run).toOption.map Prod.fst)).flatten,
       acc.2 ++ runs.filterMap (fun run =>
         match analyze run with
         | .ok res => if has_flagged_steady_state res.1 then some (res.2, run) else none
         | .error _ => none)) := by
  intro runs
  induction runs with
  | nil => intro acc; simp
  | cons r rs ih =>
    intro acc
    cases h : analyze r with
    | ok res =>
      by_cases hf : has_flagged_steady_state res.1 <;>
        simp [List.foldl, h, hf, ih, Except.toOption]
    | error e => simp [List.foldl, h, ih, Except.toOption]

/-- Entries mapped to `none` can be dropped without changing a `filterMap`. -/
lemma filterMap_drop_none {B : Type} (f : String → Option B) (r : String)
    (hf : f r = none) :
    ∀ runs : List String,
      runs.filterMap f = (runs.filter (fun x => x ≠ r)).filterMap f := by
  intro runs
  induction runs with
  | nil => rfl
  | cons x rs ih =>
    by_cases hx : x = r
    · subst hx
      simp [List.filterMap_cons, List.filter_cons, hf, ih]
    · simp [List.filterMap_cons, List.filter_cons, hx, ih]

end PipelineLemmas

/-- C8: in both passes a run whose processing raises is skipped entirely —
the pass output is exactly the concatenation of the results of the
successful runs, in run order, so a failed run contributes no row at all and the
remaining runs are unaffected; dropping a failing run from the run list
leaves the baseline output unchanged. -/
theorem C8_per_run_exception_isolation :
    (∀ (R D E : Type) (analyze : String → Except E (List R × D)) (runs : List String),
        collect_baseline_metrics analyze runs =
          (runs.filterMap (fun run => (analyze run).toOption.map Prod.fst)).flatten) ∧
    (∀ (R D E : Type) (analyze : String → Except E (List R × D))
        (runs : List String) (r : String) (e : E),
        analyze r = .error e →
        collect_baseline_metrics analyze runs =
          collect_baseline_metrics analyze (runs.filter (fun x => x ≠ r))) ∧
    (∀ (D E : Type) (analyze : String → Except E (List ResultRow × D))
        (runs : List String),
        apply_thresholds analyze runs =
          ((runs.filterMap (fun run => (analyze run).toOption.map Prod.fst)).flatten,
           runs.filterMap (fun run =>
             match analyze run with
             | .ok res => if has_flagged_steady_state res.1 then some (res.2, run) else none
             | .error _ => none))) := by
  refine ⟨?_, ?_, ?_⟩
  · intro R D E analyze runs
    unfold collect_baseline_metrics
    simpa using collect_go analyze runs []
  · intro R D E analyze runs r e herr
    unfold collect_baseline_metrics
    rw [collect_go analyze runs [], collect_go analyze (runs.filter (fun x => x ≠ r)) []]
    rw [filterMap_drop_none _ r (by simp [herr, Except.toOption]) runs]
  · intro D E analyze runs
    unfold apply_thresholds
    simpa using apply_go analyze runs ([], [])

/-- C10: the steady-state label literal is used inconsistently inside
efficiencyp2.py — the per-run flagged test matches `Steady State` while the
flagged-rows output filter matches `steady_state` — so a results table
whose rows all carry `Steady State`, one of them flagged, is reported as
flagged while the selected flagged subset is empty; indeed the output
filter selects nothing from any table labelled entirely `Steady State`. -/
theorem C10_steady_state_label_mismatch :
    has_flagged_steady_state rowsAllTitle = true ∧
    save_flagged_filter rowsAllTitle = [] ∧
    (∀ rows : List ResultRow, (∀ r ∈ rows, r.label = "Steady State") →
        save_flagged_filter rows = []) := by
  refine ⟨?_, ?_, ?_⟩
  · simp [has_flagged_steady_state, rowsAllTitle]
  · simp [save_flagged_filter, rowsAllTitle]
  · intro rows h
    unfold save_flagged_filter
    rw [List.filter_eq_nil_iff]
    intro r hr
    simp [h r hr]

/-- C9 counterexample: in efficiency.py, with dynamic thresholds supplied
but holding no entry for the group of this record, the steady-state record
is left unchecked — empty reasons, not flagged — although every fixed
threshold check fails for its metrics, so no fall-back evaluation happened. -/
theorem C9_counterexample_no_fallback_in_efficiency :
    flagSteadyEff "steady_state" "ofp1" "tc1" mBig tFix (some dynOther) =
      { flagged := false, flags := "", flag_reasons := "" } ∧
    check_fixed_thresholds mBig tFix =
      ["Variance above fixed max", "Std above fixed max",
       "Slope above fixed max", "IQR above fixed max"] := by
  constructor
  · simp [flagSteadyEff, dynTruthy, dynOther, mkFlagOutcome, List.lookup,
      String.intercalate]
  · norm_num [check_fixed_thresholds, fixedChecks, mBig, tFix, List.filter]

/-- C9 (amended): only the clean.py variant of `process_label_metrics`
falls back to the fixed threshold dictionary when the group key is absent
from supplied dynamic thresholds — and it evaluates that fall-back with
threshold type `dynamic`; the efficiency.py variant performs no fall-back
and returns the record unchecked with an empty reason list. -/
theorem C9_fallback_only_in_clean :
    ∀ (m : Metrics ℚ) (ofp tc : String) (d : List (String × List (String × ℚ)))
      (fixedMap : List (String × ℚ)) (fixedT : FixedThresholds ℚ),
      d ≠ [] → d.lookup (ofp ++ "_" ++ tc) = none →
      (flagSteadyClean "steady_state" ofp tc m fixedMap (some d) =
         mkFlagOutcome (check_thresholds m fixedMap "dynamic") ∧
       flagSteadyEff "steady_state" ofp tc m fixedT (some d) = mkFlagOutcome []) := by
  intro m ofp tc d fixedMap fixedT hne hlk
  constructor
  · unfold flagSteadyClean
    rw [if_pos rfl]
    simp [dynTruthy, hne, hlk]
  · unfold flagSteadyEff
    rw [if_pos rfl]
    simp [dynTruthy, hne, hlk, mkFlagOutcome]

/-- C9 witness: the fall-back equation of the amended claim at a concrete
record, dictionary and fixed threshold map. -/
theorem C9_witness_clean_fallback :
    dynOther ≠ [] ∧
    dynOther.lookup ("ofp1" ++ "_" ++ "tc1") = none ∧
    flagSteadyClean "steady_state" "ofp1" "tc1" mBig [("max_variance", 3 / 2)]
      (some dynOther) =
      mkFlagOutcome (check_thresholds mBig [("max_variance", 3 / 2)] "dynamic") := by
  have h1 : dynOther ≠ [] := by simp [dynOther]
  have h2 : dynOther.lookup ("ofp1" ++ "_" ++ "tc1") = none := by
    simp [dynOther, List.lookup]
  exact ⟨h1, h2,
    (C9_fallback_only_in_clean mBig "ofp1" "tc1" dynOther
      [("max_variance", 3 / 2)] tFix h1 h2).1⟩

end Dionysus
